import Mathlib

/-!
Verification development for the Conversational Agent Runtime of
`agent-engine` (`src/agent_engine/agent/base.py` and
`src/agent_engine/agent/context_agent.py`).

The runtime is shallowly embedded: Python dict/list state becomes record
and list state threaded explicitly, the external backend call becomes an
oracle parameter, and the filesystem becomes an association list from
paths to a removability flag.  Exceptions that cross a method boundary
become the `Except` error case, carrying the post-mutation object state
exactly as a raised Python exception leaves `self` behind.
-/

set_option autoImplicit false

deriving instance DecidableEq for Except

namespace AgentEngine

/-! ## Character-level string primitives

Python string operations (`in`, `startswith`, `split`, `upper`) are
modelled by structurally recursive functions over `List Char` so that
every definition evaluates by kernel reduction. -/

/-- Model of Python `s.startswith(pre)` seen as lists: first argument is a
prefix of the second. -/
def listIsPre : List Char → List Char → Bool
  | [], _ => true
  | _ :: _, [] => false
  | a :: as, b :: bs => a == b && listIsPre as bs

/-- Occurrence of `pat` as a contiguous subsequence, Python `pat in s`. -/
def listHasSub (pat : List Char) : List Char → Bool
  | [] => listIsPre pat []
  | x :: xs => listIsPre pat (x :: xs) || listHasSub pat xs

/-- Python substring test `pat in s`. -/
def strContains (s pat : String) : Bool := listHasSub pat.data s.data

/-- Python `s.startswith(pre)`. -/
def strStartsWith (s pre : String) : Bool := listIsPre pre.data s.data

/-- Python `s.upper()` (ASCII, which covers the language names used). -/
def strToUpper (s : String) : String := String.mk (s.data.map Char.toUpper)

/-- Split a character list at every occurrence of `c` (Python
`s.split(c)` with no limit). -/
def splitOnChar (c : Char) : List Char → List (List Char)
  | [] => [[]]
  | x :: xs =>
    let r := splitOnChar c xs
    if x == c then [] :: r
    else
      match r with
      | h :: t => (x :: h) :: t
      | [] => [[x]]

/-- Python `s.split(c)` as strings. -/
def pySplitAll (s : String) (c : Char) : List String :=
  (splitOnChar c s.data).map String.mk

/-- Python `s.split(c, 2)`: splits at the first two occurrences of the
separator only; the third returned part keeps any further separators.
Source: `model_name.split('@', 2)` in `BaseChatEngine.__init__`. -/
def pySplitMax2 (s : String) (c : Char) : List String :=
  let parts := splitOnChar c s.data
  (if parts.length ≤ 3 then parts
   else parts.take 2 ++ [List.intercalate [c] (parts.drop 2)]).map String.mk

/-! ## Filesystem model -/

/-- Filesystem model: an association list from full paths to a flag
telling whether `os.remove` of that path succeeds (a property of the
directory entry and its permissions).  Overwriting file content does not
change the flag; `os.remove` of a flag-`false` path raises
`PermissionError`. -/
abbrev FS := List (String × Bool)

/-- Error kinds raised by the modelled filesystem calls:
`FileNotFoundError` and `PermissionError` (both `OSError` subclasses,
which is the set the source ever catches). -/
inductive OSErr
  | fileNotFound
  | permission
deriving DecidableEq, Repr

/-- Python exceptions that can cross a method boundary in the embedded
code. -/
inductive PyExn
  | valueError (msg : String)
  | attributeError (msg : String)
  | fileNotFoundError (path : String)
  | osError (e : OSErr)
  | keyError
deriving DecidableEq, Repr

def fsLookup (fs : FS) (p : String) : Option Bool :=
  (fs.find? (fun en => en.1 == p)).map (fun en => en.2)

/-- Python `os.path.exists(p)`. -/
def fsExists (fs : FS) (p : String) : Bool := (fsLookup fs p).isSome

/-- Python `os.remove(p)`. -/
def osRemove (fs : FS) (p : String) : Except OSErr FS :=
  match fsLookup fs p with
  | none => .error .fileNotFound
  | some false => .error .permission
  | some true => .ok (fs.filter (fun en => !(en.1 == p)))

/-- Python `img.save(p)`: materializes a file.  An existing directory
entry keeps its removability flag (overwriting content does not change
directory permissions); a fresh entry is removable. -/
def fsSave (fs : FS) (p : String) : FS :=
  if fsExists fs p then fs else (p, true) :: fs

/-- Membership of a full path in a directory. -/
def inDir (d p : String) : Bool := listIsPre (d ++ "/").data p.data

/-- Python `os.listdir(d)` with `os.path.join(d, f)` folded in: the full
paths of the entries below `d`. -/
def listdir (fs : FS) (d : String) : List String :=
  (fs.filter (fun en => inDir d en.1)).map (fun en => en.1)

/-! ## Conversation data model -/

/-- One typed part of a multi-modal content list. -/
inductive Part
  | text (s : String)
  | imageUrl (url : String) (detail : String)
  | image (img : String)
deriving DecidableEq, Repr

/-- Message content: either a plain string or a list of typed parts. -/
inductive Content
  | str (s : String)
  | parts (l : List Part)
deriving DecidableEq, Repr

structure Message where
  role : String
  content : Content
deriving DecidableEq, Repr

/-- An element of `self.context`.  The source normally stores role/content
dicts, but `clear_context` (base.py line 232) stores the bare
system-prompt string, so a context element is either a structured message
or a raw string. -/
inductive CtxEntry
  | msg (m : Message)
  | raw (s : String)
deriving DecidableEq, Repr

/-! ## Model configuration and backend resolution -/

/-- Tag for the transformers class held in a `ModelConfig`. -/
inductive ModelClass
  | qwen25VL
  | autoCausalLM
deriving DecidableEq, Repr

/-- `ModelConfig` dataclass of base.py. -/
structure ModelConfig where
  modelClass : Option ModelClass
  supportsImages : Bool := false
  supportsVllm : Bool := false
deriving DecidableEq, Repr

/-- `BaseChatEngine.MODEL_CONFIGS` as an ordered pattern/config table.
`hasQwenVL` records whether the guarded
`Qwen2_5_VLForConditionalGeneration` import succeeded. -/
def MODEL_CONFIGS (hasQwenVL : Bool) : List (String × ModelConfig) :=
  [("Qwen2.5-VL",
    { modelClass := if hasQwenVL then some .qwen25VL else none,
      supportsImages := true,
      supportsVllm := false })]

/-- `BaseChatEngine.DEFAULT_CONFIG`. -/
def DEFAULT_CONFIG : ModelConfig :=
  { modelClass := some .autoCausalLM,
    supportsImages := false,
    supportsVllm := true }

/-- The pattern loop of `BaseChatEngine._get_model_config`: the first
table entry whose pattern occurs in the model name wins. -/
def findConfig (modelName : String) :
    List (String × ModelConfig) → Option ModelConfig
  | [] => none
  | pc :: rest =>
    if strContains modelName pc.1 then some pc.2 else findConfig modelName rest

/-- `BaseChatEngine._get_model_config`. -/
def getModelConfig (hasQwenVL isOnline : Bool) (modelName : String) : ModelConfig :=
  if isOnline then DEFAULT_CONFIG
  else
    match findConfig modelName (MODEL_CONFIGS hasQwenVL) with
    | some cfg => cfg
    | none => DEFAULT_CONFIG

/-! ## Task registry and engine state -/

inductive TaskStatus
  | pending
  | completed
  | error
deriving DecidableEq, Repr

/-- One entry of `self.tasks` (and also the dict shape that
`generate_response` returns). -/
structure Task where
  status : TaskStatus
  result : Option String
  prompt : String
  imagePath : Option String
deriving DecidableEq, Repr

/-- The mutable attribute state of a constructed `ContextualChatEngine`.
Job ids: `uuid.uuid4()` is modelled as a fresh-identifier supply, a
counter `nextId` whose values never repeat. -/
structure EngineState where
  isOnline : Bool
  modelConfig : ModelConfig
  tmpDir : String
  maxNewTokens : Nat
  useVllm : Option Bool
  hasProcessor : Bool
  apiUrl : Option String := none
  apiKey : Option String := none
  apiModel : Option String := none
  context : List CtxEntry
  tasks : List (Nat × Task)
  nextId : Nat
  systemPrompt : Option String
  language : String
deriving DecidableEq, Repr

/-- Python truthiness of an optional string (`None` and `""` are falsy). -/
def optTruthy : Option String → Bool
  | none => false
  | some s => s != ""

/-- The language ribbon appended to every user prompt. -/
def promptSuffix (language : String) : String :=
  "\n\n(Please respond only in language " ++ strToUpper language ++ ")"

/-- The system message installed by `BaseChatEngine._init_system_prompt`. -/
def systemMessage (cfg : ModelConfig) (language sp : String) : CtxEntry :=
  let txt := "(Please response only in language " ++ strToUpper language ++ ")\n\n" ++ sp
  if cfg.supportsImages then .msg { role := "system", content := .parts [.text txt] }
  else .msg { role := "system", content := .str txt }

/-- The `if system_prompt: self._init_system_prompt()` tail of
construction. -/
def withSystemPrompt (st : EngineState) : EngineState :=
  match st.systemPrompt with
  | some s =>
    if s != "" then
      { st with context := st.context ++ [systemMessage st.modelConfig st.language s] }
    else st
  | none => st

/-! ## Construction -/

/-- The acceleration configuration object (`vllm_cfg`).  Only the
tri-state `enable` attribute steers control flow before external engine
construction, so only it is kept. -/
structure VllmCfg where
  enable : Option Bool
deriving DecidableEq, Repr

/-- Environment facts probed during construction: guarded imports, GPU
presence, and whether the external vllm engine constructor succeeds. -/
structure Env where
  hasQwenVL : Bool := false
  vllmAvailable : Bool := false
  cudaAvailable : Bool := false
  vllmInitOk : Bool := false
deriving DecidableEq, Repr

/-- `BaseChatEngine.__init__` as run by `ContextualChatEngine`.  Loading
model weights and processor from disk is external and modelled as
succeeding; of local backend construction only its observable effects are
kept: vllm leaves `processor = None` (no `hasProcessor`), transformers
installs a processor, and a failed vllm construction falls back to
transformers with `use_vllm := False`. -/
def initEngine (env : Env) (modelName : String) (systemPrompt : Option String)
    (language : String) (tmpDir : String) (maxNewTokens : Nat)
    (vllmCfg : Option VllmCfg) : Except PyExn EngineState :=
  let isOnline := strStartsWith modelName "http"
  let cfg := getModelConfig env.hasQwenVL isOnline modelName
  if !isOnline && cfg.modelClass.isNone then
    .error (.valueError ("Model " ++ modelName ++ " is not properly supported"))
  else
    match vllmCfg with
    | none => .error (.attributeError "NoneType object has no attribute enable")
    | some vc =>
      let useVllm : Option Bool :=
        match vc.enable with
        | none => some false
        | some true =>
          if !isOnline then
            some (env.vllmAvailable && cfg.supportsVllm && env.cudaAvailable)
          else none
        | some false => if !isOnline then some false else none
      if isOnline then
        match pySplitMax2 modelName '@' with
        | [u, k, m] =>
          .ok (withSystemPrompt
            { isOnline := true, modelConfig := cfg, tmpDir := tmpDir,
              maxNewTokens := maxNewTokens, useVllm := useVllm,
              hasProcessor := false,
              apiUrl := some u, apiKey := some k, apiModel := some m,
              context := [], tasks := [], nextId := 0,
              systemPrompt := systemPrompt, language := language })
        | _ => .error (.valueError "Invalid model name for online mode.")
      else
        let vllmWorks := useVllm == some true && env.vllmInitOk
        let useVllm2 :=
          if useVllm == some true && !env.vllmInitOk then some false else useVllm
        .ok (withSystemPrompt
          { isOnline := false, modelConfig := cfg, tmpDir := tmpDir,
            maxNewTokens := maxNewTokens, useVllm := useVllm2,
            hasProcessor := !vllmWorks,
            context := [], tasks := [], nextId := 0,
            systemPrompt := systemPrompt, language := language })

/-! ## Submission -/

/-- Outcome of the one backend generation call a request makes (HTTP
completion round-trip including response parsing, or local
template/tokenize/generate/decode): the produced text, or the stringified
exception. -/
inductive GenOutcome
  | ok (text : String)
  | fail (err : String)
deriving DecidableEq, Repr

/-- Request payload assembly: `messages = self.context.copy()` followed by
appending the user turn to that copy (context_agent.py lines 114-118 and
184-204).  The shared context is not touched here. -/
def buildMessages (ctx : List CtxEntry) (userContent : Content) : List CtxEntry :=
  ctx ++ [.msg { role := "user", content := userContent }]

def taskLookup (tasks : List (Nat × Task)) (id : Nat) : Option Task :=
  (tasks.find? (fun kt => kt.1 == id)).map (fun kt => kt.2)

def taskUpdate (tasks : List (Nat × Task)) (id : Nat) (t : Task) :
    List (Nat × Task) :=
  tasks.map (fun kt => if kt.1 == id then (id, t) else kt)

/-- Result of a submission: the returned task dict with the surviving
object state, or a raised exception with the surviving object state. -/
abbrev PResult := Except (PyExn × EngineState × FS) (Task × EngineState × FS)

/-- User content assembly of `_process_task` lines 186-200. -/
def assembleUserContent (cfg : ModelConfig) (language prompt : String)
    (imgPath : Option String) : Content :=
  if optTruthy imgPath && cfg.supportsImages then
    .parts [.image (imgPath.getD ""), .text (prompt ++ promptSuffix language)]
  else
    .str (prompt ++ promptSuffix language)

/-- The try block of `_process_task` up to and including the backend
call: it re-opens the task's materialized image (raising inside the try
when the file is gone), falls over to the absent `self.tokenizer` when no
processor was installed, and otherwise defers to the backend outcome
`gen`.  The error carries the stringified exception `str(e)`. -/
def tryBody (st : EngineState) (fs : FS) (task : Task) (gen : GenOutcome) :
    Except String String :=
  if optTruthy task.imagePath && st.modelConfig.supportsImages
      && !(fsExists fs (task.imagePath.getD "")) then
    .error ("Image open failed: " ++ task.imagePath.getD "")
  else if !st.hasProcessor then
    .error "AttributeError: no attribute tokenizer"
  else
    match gen with
    | .ok t => .ok t
    | .fail e => .error e

/-- The tail of the except handler of `_process_task` (lines 253-255,
after the task has been marked `error`): the task's image file is removed
after a bare `os.path.exists` check with an UNGUARDED `os.remove`, so a
failing removal raises out of the method. -/
def handleTaskError (st2 : EngineState) (task2 : Task) (fs : FS)
    (imgPath : Option String) : PResult :=
  if optTruthy imgPath && fsExists fs (imgPath.getD "") then
    match osRemove fs (imgPath.getD "") with
    | .ok fs2 => .ok (task2, st2, fs2)
    | .error oe => .error (.osError oe, st2, fs)
  else .ok (task2, st2, fs)

/-- `ContextualChatEngine._process_task`.  On success the task is
completed and the assistant turn appended to the shared context; on any
exception caught by the handler the task is marked `error` with the
stringified failure and the image asset removal of `handleTaskError`
runs. -/
def processTask (st : EngineState) (fs : FS) (jobId : Nat) (gen : GenOutcome) :
    PResult :=
  match taskLookup st.tasks jobId with
  | none => .error (.keyError, st, fs)
  | some task =>
    let _messages := buildMessages st.context
      (assembleUserContent st.modelConfig st.language task.prompt task.imagePath)
    match tryBody st fs task gen with
    | .ok outputText =>
      let task2 := { task with status := .completed, result := some outputText }
      let aiMsg : Content :=
        if st.modelConfig.supportsImages then .parts [.text outputText]
        else .str outputText
      .ok (task2,
        { st with
            tasks := taskUpdate st.tasks jobId task2,
            context := st.context ++ [.msg { role := "assistant", content := aiMsg }] },
        fs)
    | .error e =>
      let task2 := { task with status := .error, result := some e }
      handleTaskError { st with tasks := taskUpdate st.tasks jobId task2 }
        task2 fs task.imagePath

/-- `ContextualChatEngine.generate_response`.  Remote branch: a missing
image is answered with an error dict; otherwise one HTTP call decides
between appending the assistant turn (success) and an error dict.  Local
branch: a supplied image is re-encoded into the tmp directory under the
job id — `Image.open` on a missing path raises out of the method
(lines 161-164 carry no try) — then exactly one pending task is
registered and driven by `_process_task`. -/
def generate_response (st0 : EngineState) (fs : FS) (prompt : String)
    (imgPath : Option String) (gen : GenOutcome) : PResult :=
  let jobId := st0.nextId
  let st := { st0 with nextId := st0.nextId + 1 }
  if st.isOnline then
    let withImage := st.modelConfig.supportsImages && optTruthy imgPath
    if withImage && !(fsExists fs (imgPath.getD "")) then
      .ok ({ status := .error,
             result := some ("Image file not found: " ++ imgPath.getD ""),
             prompt := prompt, imagePath := imgPath }, st, fs)
    else
      let content : List Part :=
        (if withImage then
           [.imageUrl ("data:image/jpeg;base64," ++ imgPath.getD "") "auto"]
         else []) ++ [.text (prompt ++ promptSuffix st.language)]
      let _messages := buildMessages st.context (.parts content)
      match gen with
      | .ok outputText =>
        .ok ({ status := .completed, result := some outputText,
               prompt := prompt, imagePath := imgPath },
             { st with context := st.context ++
                 [.msg { role := "assistant", content := .parts [.text outputText] }] },
             fs)
      | .fail e =>
        .ok ({ status := .error, result := some e,
               prompt := prompt, imagePath := imgPath }, st, fs)
  else
    if st.modelConfig.supportsImages && optTruthy imgPath then
      let p := imgPath.getD ""
      if !(fsExists fs p) then
        .error (.fileNotFoundError p, st, fs)
      else
        let newPath := st.tmpDir ++ "/" ++ toString jobId ++ ".jpg"
        let fs2 := fsSave fs newPath
        let task : Task :=
          { status := .pending, result := none, prompt := prompt,
            imagePath := some newPath }
        processTask { st with tasks := (jobId, task) :: st.tasks } fs2 jobId gen
    else
      let task : Task :=
        { status := .pending, result := none, prompt := prompt,
          imagePath := imgPath }
      processTask { st with tasks := (jobId, task) :: st.tasks } fs jobId gen

/-- Sequential text-only submissions against one agent, each with the
outcome of its backend call. -/
def runSubmits (st : EngineState) (fs : FS) :
    List (String × GenOutcome) →
      Except (PyExn × EngineState × FS) (List Task × EngineState × FS)
  | [] => .ok ([], st, fs)
  | (p, g) :: rest =>
    match generate_response st fs p none g with
    | .ok (r, st2, fs2) =>
      match runSubmits st2 fs2 rest with
      | .ok (rs, st3, fs3) => .ok (r :: rs, st3, fs3)
      | .error e => .error e
    | .error e => .error e

/-! ## Lifecycle -/

/-- The `except (FileNotFoundError, PermissionError, OSError)` clause of
`BaseChatEngine.clear_context`: which removal errors are caught (and
downgraded to a console diagnostic). -/
def clearCatches : OSErr → Bool
  | .fileNotFound => true
  | .permission => true

/-- One `try: os.remove(p) except (FileNotFoundError, PermissionError,
OSError)` step of `clear_context`; an uncaught kind would re-raise. -/
def tryRemoveQuiet (fs : FS) (p : String) (log : List String) :
    Except OSErr (FS × List String) :=
  match osRemove fs p with
  | .ok fs2 => .ok (fs2, log)
  | .error e =>
    if clearCatches e then
      .ok (fs, log ++ ["Failed to delete temporary file " ++ p])
    else .error e

/-- Guarded removal of a list of paths in order. -/
def removeAll (fs : FS) (log : List String) :
    List String → Except OSErr (FS × List String)
  | [] => .ok (fs, log)
  | p :: rest =>
    match tryRemoveQuiet fs p log with
    | .ok (fs2, log2) => removeAll fs2 log2 rest
    | .error e => .error e

/-- The context after `clear_context` line 232: the RAW system-prompt
string when one is configured (Python truthiness), else empty. -/
def clearedCtx (sp : Option String) : List CtxEntry :=
  match sp with
  | some s => if s != "" then [.raw s] else []
  | none => []

/-- The image paths held by tasks (`if task.get('image_path')`). -/
def taskImagePaths (tasks : List (Nat × Task)) : List String :=
  tasks.filterMap (fun kt => if optTruthy kt.2.imagePath then kt.2.imagePath else none)

/-- `BaseChatEngine.clear_context`: reset the context (to the RAW
system-prompt string), remove every task-owned image with errors caught,
empty the registry, then sweep the files listed in the tmp directory with
errors caught.  The returned log is the emitted diagnostics. -/
def clearContext (st : EngineState) (fs : FS) :
    Except OSErr (EngineState × FS × List String) :=
  match removeAll fs [] (taskImagePaths st.tasks) with
  | .error e => .error e
  | .ok (fs1, log1) =>
    match removeAll fs1 log1 (listdir fs1 st.tmpDir) with
    | .error e => .error e
    | .ok (fs2, log2) =>
      .ok ({ st with context := clearedCtx st.systemPrompt, tasks := [] }, fs2, log2)

/-! ## Small observers -/

/-- The engine state surviving a submission, whether it returned or
raised. -/
def stateOf : PResult → EngineState
  | .ok (_, s, _) => s
  | .error (_, s, _) => s

def taskKeys (tasks : List (Nat × Task)) : List Nat :=
  tasks.map (fun kt => kt.1)

def exceptIsOk {ε α : Type} : Except ε α → Bool
  | .ok _ => true
  | .error _ => false

/-- Functional core of one caught removal: delete if possible, otherwise
leave the filesystem unchanged. -/
def quietRemove (fs : FS) (p : String) : FS :=
  match osRemove fs p with
  | .ok fs2 => fs2
  | .error _ => fs

/-- Functional core of a caught removal sweep over a name list. -/
def sweepFS (fs : FS) (names : List String) : FS :=
  names.foldl quietRemove fs

/-- The filesystem left behind by one `clear_context` call. -/
def fsAfterClear (st : EngineState) (fs : FS) : FS :=
  sweepFS (sweepFS fs (taskImagePaths st.tasks))
    (listdir (sweepFS fs (taskImagePaths st.tasks)) st.tmpDir)

/-! ## Concrete engine states used by witnesses and counterexamples -/

/-- A constructed remote-backend engine (as produced by `initEngine` for
the identifier `http://h@k@m` with a system prompt). -/
def exOnlineState : EngineState :=
  { isOnline := true, modelConfig := DEFAULT_CONFIG, tmpDir := "asset/tmp",
    maxNewTokens := 512, useVllm := none, hasProcessor := false,
    apiUrl := some "http://h", apiKey := some "k", apiModel := some "m",
    context := [.msg { role := "system", content := .str "(Please response only in language ENGLISH)\n\nsys" }],
    tasks := [], nextId := 0, systemPrompt := some "sys", language := "english" }

/-- The table capability set of the vision family. -/
def exVisionCfg : ModelConfig :=
  { modelClass := some .qwen25VL, supportsImages := true, supportsVllm := false }

/-- A local vision-capable engine (pattern `Qwen2.5-VL`, transformers
backend). -/
def exLocalVisionState : EngineState :=
  { isOnline := false, modelConfig := exVisionCfg, tmpDir := "asset/tmp",
    maxNewTokens := 512, useVllm := some false, hasProcessor := true,
    context := [], tasks := [], nextId := 0, systemPrompt := none,
    language := "english" }

/-- A local text-only engine (default capability set, transformers
backend). -/
def exLocalTextState : EngineState :=
  { isOnline := false, modelConfig := DEFAULT_CONFIG, tmpDir := "asset/tmp",
    maxNewTokens := 512, useVllm := some false, hasProcessor := true,
    context := [], tasks := [], nextId := 0, systemPrompt := none,
    language := "english" }

/-- A remote vision-capable engine for the C3 witness. -/
def exOnlineVisionState : EngineState :=
  { exOnlineState with modelConfig := exVisionCfg }

/-- A local engine holding one registered pending task with a
materialized image, for the C4 witness. -/
def exTaskState : EngineState :=
  { exLocalVisionState with
      nextId := 1,
      tasks := [(0, { status := .pending, result := none, prompt := "p", imagePath := some "asset/tmp/0.jpg" })] }

/-! ## Branch lemmas -/

@[simp]
theorem stateOf_ok (r : Task) (s : EngineState) (f : FS) :
    stateOf (.ok (r, s, f)) = s := rfl

@[simp]
theorem stateOf_error (e : PyExn) (s : EngineState) (f : FS) :
    stateOf (.error (e, s, f)) = s := rfl


@[simp]
theorem taskLookup_cons_self (j : Nat) (t : Task) (rest : List (Nat × Task)) :
    taskLookup ((j, t) :: rest) j = some t := by
  simp [taskLookup, List.find?]

@[simp]
theorem map_fst_taskUpdate (tasks : List (Nat × Task)) (j : Nat) (t : Task) :
    List.map (fun kt => kt.1) (taskUpdate tasks j t)
      = List.map (fun kt => kt.1) tasks := by
  induction tasks with
  | nil => rfl
  | cons kt rest ih =>
    simp only [taskUpdate, List.map_cons] at ih ⊢
    refine congrArg₂ List.cons ?_ ih
    cases h : (kt.1 == j) with
    | true => simp [eq_of_beq h]
    | false => simp [h]

theorem taskKeys_taskUpdate (tasks : List (Nat × Task)) (j : Nat) (t : Task) :
    taskKeys (taskUpdate tasks j t) = taskKeys tasks :=
  map_fst_taskUpdate tasks j t

/-- Every outcome of the except-handler tail: either it returns the error
task with the post-mutation state, or the unguarded removal raises. -/
theorem handleTaskError_cases (st2 : EngineState) (task2 : Task) (fs : FS)
    (imgPath : Option String) :
    (∃ fs2, handleTaskError st2 task2 fs imgPath = .ok (task2, st2, fs2)) ∨
    (∃ oe, handleTaskError st2 task2 fs imgPath = .error (.osError oe, st2, fs)) := by
  unfold handleTaskError
  by_cases h : (optTruthy imgPath && fsExists fs (imgPath.getD "")) = true
  · simp only [h, if_true]
    cases hr : osRemove fs (imgPath.getD "") with
    | ok fs2 => exact Or.inl ⟨fs2, rfl⟩
    | error oe => exact Or.inr ⟨oe, rfl⟩
  · simp only [h]
    exact Or.inl ⟨fs, by simp⟩

/-- Every outcome of `_process_task` on a registered job: a completed task
with exactly one appended assistant turn, an error task with the context
untouched, or a raised removal error with the context untouched.  In all
three cases the registry is only rewritten at the job's key. -/
theorem processTask_cases (st : EngineState) (fs : FS) (j : Nat)
    (gen : GenOutcome) (task : Task)
    (hT : taskLookup st.tasks j = some task) :
    (∃ txt, processTask st fs j gen =
      .ok ({ task with status := .completed, result := some txt },
        { st with
            tasks := taskUpdate st.tasks j { task with status := .completed, result := some txt },
            context := st.context ++ [.msg { role := "assistant", content := if st.modelConfig.supportsImages then Content.parts [.text txt] else Content.str txt }] },
        fs)) ∨
    (∃ e fs2, processTask st fs j gen =
      .ok ({ task with status := .error, result := some e },
        { st with tasks := taskUpdate st.tasks j { task with status := .error, result := some e } },
        fs2)) ∨
    (∃ e oe, processTask st fs j gen =
      .error (.osError oe,
        { st with tasks := taskUpdate st.tasks j { task with status := .error, result := some e } },
        fs)) := by
  cases htr : tryBody st fs task gen with
  | ok txt =>
    exact Or.inl ⟨txt, by simp [processTask, hT, htr]⟩
  | error e =>
    rcases handleTaskError_cases
        { st with tasks := taskUpdate st.tasks j { task with status := .error, result := some e } }
        { task with status := .error, result := some e } fs task.imagePath with
      ⟨fs2, h⟩ | ⟨oe, h⟩
    · exact Or.inr (Or.inl ⟨e, fs2, by simp [processTask, hT, htr, h]⟩)
    · exact Or.inr (Or.inr ⟨e, oe, by simp [processTask, hT, htr, h]⟩)

/-- Every outcome of the remote branch of `generate_response`: a success
appending exactly the assistant turn, or an error dict returned as data
with the state untouched (`nextId` aside, which models the drawn uuid). -/
theorem generate_online_cases (st : EngineState) (fs : FS) (prompt : String)
    (imgPath : Option String) (gen : GenOutcome) (hon : st.isOnline = true) :
    (∃ t, gen = .ok t ∧ generate_response st fs prompt imgPath gen =
      .ok ({ status := .completed, result := some t, prompt := prompt, imagePath := imgPath },
        { st with
            nextId := st.nextId + 1,
            context := st.context ++ [.msg { role := "assistant", content := .parts [.text t] }] },
        fs)) ∨
    (∃ r, r.status = .error ∧ generate_response st fs prompt imgPath gen =
      .ok (r, { st with nextId := st.nextId + 1 }, fs)) := by
  cases hw : st.modelConfig.supportsImages && optTruthy imgPath with
  | true =>
    cases he : fsExists fs (imgPath.getD "") with
    | true =>
      cases gen with
      | ok t =>
        exact Or.inl ⟨t, rfl, by simp [generate_response, hon, hw, he]⟩
      | fail e =>
        refine Or.inr ⟨{ status := .error, result := some e, prompt := prompt, imagePath := imgPath }, rfl, ?_⟩
        simp [generate_response, hon, hw, he]
    | false =>
      refine Or.inr ⟨{ status := .error, result := some ("Image file not found: " ++ imgPath.getD ""), prompt := prompt, imagePath := imgPath }, rfl, ?_⟩
      simp [generate_response, hon, hw, he]
  | false =>
    cases gen with
    | ok t =>
      exact Or.inl ⟨t, rfl, by simp [generate_response, hon, hw]⟩
    | fail e =>
      refine Or.inr ⟨{ status := .error, result := some e, prompt := prompt, imagePath := imgPath }, rfl, ?_⟩
      simp [generate_response, hon, hw]

/-- Every outcome of the local branch of `generate_response`: either the
materialization of a supplied image fails and `FileNotFoundError` escapes
with everything untouched, or exactly one fresh pending task is registered
and handed to `_process_task`. -/
theorem generate_local_cases (st : EngineState) (fs : FS) (prompt : String)
    (imgPath : Option String) (gen : GenOutcome) (hoff : st.isOnline = false) :
    ((st.modelConfig.supportsImages && optTruthy imgPath) = true ∧
      fsExists fs (imgPath.getD "") = false ∧
      generate_response st fs prompt imgPath gen =
        .error (.fileNotFoundError (imgPath.getD ""), { st with nextId := st.nextId + 1 }, fs)) ∨
    (∃ task fs1, generate_response st fs prompt imgPath gen =
      processTask { st with nextId := st.nextId + 1, tasks := (st.nextId, task) :: st.tasks }
        fs1 st.nextId gen) := by
  cases hw : st.modelConfig.supportsImages && optTruthy imgPath with
  | true =>
    cases he : fsExists fs (imgPath.getD "") with
    | true =>
      refine Or.inr ⟨{ status := .pending, result := none, prompt := prompt, imagePath := some (st.tmpDir ++ "/" ++ toString st.nextId ++ ".jpg") },
        fsSave fs (st.tmpDir ++ "/" ++ toString st.nextId ++ ".jpg"), ?_⟩
      simp [generate_response, hoff, hw, he]
    | false =>
      exact Or.inl ⟨rfl, rfl, by simp [generate_response, hoff, hw, he]⟩
  | false =>
    refine Or.inr ⟨{ status := .pending, result := none, prompt := prompt, imagePath := imgPath }, fs, ?_⟩
    simp [generate_response, hoff, hw]

/-- The example remote state is reachable: `initEngine` produces it. -/
theorem exOnlineState_reachable :
    initEngine {} "http://h@k@m" (some "sys") "english" "asset/tmp" 512
      (some { enable := some true }) = .ok exOnlineState := by decide

/-! ## Resolver lemmas -/

theorem findConfig_append_none (name : String) (l1 l2 : List (String × ModelConfig))
    (h1 : ∀ pc ∈ l1, strContains name pc.1 = false) :
    findConfig name (l1 ++ l2) = findConfig name l2 := by
  induction l1 with
  | nil => rfl
  | cons pc rest ih =>
    have hpc : strContains name pc.1 = false := h1 pc (List.mem_cons_self pc rest)
    simp only [List.cons_append, findConfig, hpc, Bool.false_eq_true, if_false]
    exact ih (fun q hq => h1 q (List.mem_cons_of_mem pc hq))

theorem findConfig_none (name : String) (l : List (String × ModelConfig))
    (h : ∀ pc ∈ l, strContains name pc.1 = false) :
    findConfig name l = none := by
  induction l with
  | nil => rfl
  | cons pc rest ih =>
    have hpc : strContains name pc.1 = false := h pc (List.mem_cons_self pc rest)
    simp only [findConfig, hpc, Bool.false_eq_true, if_false]
    exact ih (fun q hq => h q (List.mem_cons_of_mem pc hq))

/-! ## Claim C6 -/

/-- C6: for local identifiers, capability resolution returns the fixed
capability set of the first table pattern occurring in the identifier
(first match wins over the ordered table); identifiers matching no
pattern get the default set (no image support, vllm-eligible); remote
identifiers get the default set without consulting the table. -/
theorem c6_backend_capability_resolution (hasQwenVL : Bool) (name : String) :
    (getModelConfig hasQwenVL true name = DEFAULT_CONFIG) ∧
    (∀ l1 l2 pat cfg, MODEL_CONFIGS hasQwenVL = l1 ++ (pat, cfg) :: l2 →
      (∀ pc ∈ l1, strContains name pc.1 = false) →
      strContains name pat = true →
      getModelConfig hasQwenVL false name = cfg) ∧
    ((∀ pc ∈ MODEL_CONFIGS hasQwenVL, strContains name pc.1 = false) →
      getModelConfig hasQwenVL false name = DEFAULT_CONFIG) ∧
    DEFAULT_CONFIG.supportsImages = false ∧ DEFAULT_CONFIG.supportsVllm = true := by
  refine ⟨rfl, ?_, ?_, rfl, rfl⟩
  · intro l1 l2 pat cfg htab h1 h2
    unfold getModelConfig
    rw [htab, findConfig_append_none name l1 _ h1]
    simp [findConfig, h2]
  · intro h
    unfold getModelConfig
    rw [findConfig_none name _ h]
    rfl

/-- Witness for C6: the identifier `Qwen2.5-VL-7B-Instruct` matches the
first (and only) table pattern and resolves to the vision capability
set. -/
theorem c6_backend_capability_resolution_witness :
    getModelConfig true false "Qwen2.5-VL-7B-Instruct" = exVisionCfg := by
  have h := (c6_backend_capability_resolution true "Qwen2.5-VL-7B-Instruct").2.1
    [] [] "Qwen2.5-VL" exVisionCfg (by decide) (by simp) (by decide)
  exact h

/-! ## Claim C5 -/

/-- C5 counterexample: the remote identifier `http://h@k@m@x` decomposes
into FOUR delimiter-separated parts, not three, yet construction
succeeds, because the source splits with `split('@', 2)` and only checks
that limited split. -/
theorem c5_counterexample :
    (pySplitAll "http://h@k@m@x" '@').length = 4 ∧
    exceptIsOk (initEngine {} "http://h@k@m@x" none "english" "asset/tmp" 512
      (some { enable := some false })) = true := by decide

/-- C5 amended: for a remote identifier, construction succeeds exactly
when splitting at the FIRST TWO delimiter occurrences yields three parts,
i.e. when the identifier contains at least two delimiters; the model-name
part keeps any further delimiters.  Any other remote identifier is
rejected with the descriptive error. -/
theorem c5_amended_remote_split (env : Env) (modelName : String)
    (systemPrompt : Option String) (language tmpDir : String)
    (maxNewTokens : Nat) (vc : VllmCfg)
    (hon : strStartsWith modelName "http" = true) :
    (exceptIsOk (initEngine env modelName systemPrompt language tmpDir maxNewTokens (some vc)) = true
      ↔ (pySplitMax2 modelName '@').length = 3) ∧
    ((pySplitMax2 modelName '@').length ≠ 3 →
      initEngine env modelName systemPrompt language tmpDir maxNewTokens (some vc) =
        .error (.valueError "Invalid model name for online mode.")) := by
  unfold initEngine
  simp only [hon, Bool.not_true, Bool.false_and, Bool.false_eq_true, if_false, if_true]
  rcases hsplit : pySplitMax2 modelName '@' with _ | ⟨a, _ | ⟨b, _ | ⟨c, _ | ⟨d, rest⟩⟩⟩⟩ <;>
    simp [hsplit, exceptIsOk]

/-- Witness for C5 amended, at the well-formed identifier
`http://h@k@m`. -/
theorem c5_amended_remote_split_witness :
    (exceptIsOk (initEngine {} "http://h@k@m" none "english" "asset/tmp" 512
        (some { enable := some false })) = true
      ↔ (pySplitMax2 "http://h@k@m" '@').length = 3) ∧
    ((pySplitMax2 "http://h@k@m" '@').length ≠ 3 →
      initEngine {} "http://h@k@m" none "english" "asset/tmp" 512
          (some { enable := some false }) =
        .error (.valueError "Invalid model name for online mode.")) := by
  exact c5_amended_remote_split {} "http://h@k@m" none "english" "asset/tmp" 512
    { enable := some false } (by decide)

/-! ## Submission result injectivity helpers -/

theorem pres_ok_inj {a b : Task} {s t : EngineState} {f g : FS}
    (h : (Except.ok (a, s, f) : PResult) = .ok (b, t, g)) :
    a = b ∧ s = t ∧ f = g := by
  simpa using h

theorem pres_error_inj {a b : PyExn} {s t : EngineState} {f g : FS}
    (h : (Except.error (a, s, f) : PResult) = .error (b, t, g)) :
    a = b ∧ s = t ∧ f = g := by
  simpa using h

/-- Bound on registry keys after exactly one fresh registration. -/
theorem keys_bound (l0 l : List (Nat × Task)) (n : Nat)
    (hkeys : taskKeys l = n :: taskKeys l0)
    (hfresh : ∀ kt ∈ l0, kt.1 < n) :
    ∀ kt ∈ l, kt.1 < n + 1 := by
  intro kt hkt
  have hmem : kt.1 ∈ taskKeys l := List.mem_map_of_mem _ hkt
  rw [hkeys] at hmem
  rcases List.mem_cons.mp hmem with h | h
  · exact h ▸ Nat.lt_succ_self n
  · obtain ⟨kt0, hkt0, hk⟩ := List.mem_map.mp h
    exact Nat.lt_succ_of_lt (hk ▸ hfresh kt0 hkt0)

/-! ## Claim C2 -/

/-- C2: for every submit call (remote or local), exactly one assistant
message is appended to the shared context when and only when the request
completes (the backend call returned successfully); every error outcome —
returned as data or raised — leaves the shared context completely
unmodified. -/
theorem c2_assistant_append_iff_success (st : EngineState) (fs : FS)
    (prompt : String) (imgPath : Option String) (gen : GenOutcome) :
    (∀ r st2 fs2, generate_response st fs prompt imgPath gen = .ok (r, st2, fs2) →
      (r.status = .completed →
        ∃ c, st2.context = st.context ++ [.msg { role := "assistant", content := c }]) ∧
      (r.status ≠ .completed → st2.context = st.context)) ∧
    (∀ e st2 fs2, generate_response st fs prompt imgPath gen = .error (e, st2, fs2) →
      st2.context = st.context) := by
  cases hon : st.isOnline with
  | true =>
    rcases generate_online_cases st fs prompt imgPath gen hon with
      ⟨t, -, heq⟩ | ⟨r0, hr0, heq⟩
    · constructor
      · intro r st2 fs2 h
        rw [heq] at h
        obtain ⟨h1, h2, -⟩ := pres_ok_inj h
        subst h1
        subst h2
        exact ⟨fun _ => ⟨.parts [.text t], rfl⟩, fun hne => absurd rfl hne⟩
      · intro e st2 fs2 h
        rw [heq] at h
        exact absurd h (by simp)
    · constructor
      · intro r st2 fs2 h
        rw [heq] at h
        obtain ⟨h1, h2, -⟩ := pres_ok_inj h
        subst h1
        subst h2
        refine ⟨fun hc => ?_, fun _ => rfl⟩
        rw [hc] at hr0
        simp at hr0
      · intro e st2 fs2 h
        rw [heq] at h
        exact absurd h (by simp)
  | false =>
    rcases generate_local_cases st fs prompt imgPath gen hon with
      ⟨-, -, heq⟩ | ⟨task, fs1, heq⟩
    · constructor
      · intro r st2 fs2 h
        rw [heq] at h
        exact absurd h (by simp)
      · intro e st2 fs2 h
        rw [heq] at h
        obtain ⟨-, h2, -⟩ := pres_error_inj h
        subst h2
        rfl
    · rcases processTask_cases
          { st with nextId := st.nextId + 1, tasks := (st.nextId, task) :: st.tasks }
          fs1 st.nextId gen task (by simp) with
        ⟨txt, hpt⟩ | ⟨e0, fs2x, hpt⟩ | ⟨e0, oe, hpt⟩
      · constructor
        · intro r st2 fs2 h
          rw [heq, hpt] at h
          obtain ⟨h1, h2, -⟩ := pres_ok_inj h
          subst h1
          subst h2
          exact ⟨fun _ => ⟨_, rfl⟩, fun hne => absurd rfl hne⟩
        · intro e st2 fs2 h
          rw [heq, hpt] at h
          exact absurd h (by simp)
      · constructor
        · intro r st2 fs2 h
          rw [heq, hpt] at h
          obtain ⟨h1, h2, -⟩ := pres_ok_inj h
          subst h1
          subst h2
          refine ⟨fun hc => ?_, fun _ => rfl⟩
          simp at hc
        · intro e st2 fs2 h
          rw [heq, hpt] at h
          exact absurd h (by simp)
      · constructor
        · intro r st2 fs2 h
          rw [heq, hpt] at h
          exact absurd h (by simp)
        · intro e st2 fs2 h
          rw [heq, hpt] at h
          obtain ⟨-, h2, -⟩ := pres_error_inj h
          subst h2
          rfl

/-- Witness for C2 at a concrete remote submit whose backend call fails:
the returned status is not `completed` and the shared context survives
unchanged. -/
theorem c2_assistant_append_iff_success_witness :
    ({ exOnlineState with nextId := 1 } : EngineState).context
      = exOnlineState.context := by
  have h := (c2_assistant_append_iff_success exOnlineState [] "hi" none (.fail "err")).1
    { status := .error, result := some "err", prompt := "hi", imagePath := none }
    { exOnlineState with nextId := 1 } [] (by decide)
  exact h.2 (by decide)

/-! ## Claim C3 -/

/-- C3 counterexample: a local vision-capable engine given a nonexistent
image path lets `FileNotFoundError` escape `generate_response` instead of
returning a result with status `error`. -/
theorem c3_counterexample :
    generate_response exLocalVisionState [] "describe" (some "missing.jpg") (.ok "r")
      = .error (.fileNotFoundError "missing.jpg",
          { exLocalVisionState with nextId := 1 }, []) := by decide

/-- C3 amended: with an image-capable backend and a nonexistent image
path, the REMOTE branch returns a result with status `error` as data and
leaves the context unchanged, while the LOCAL branch raises
`FileNotFoundError` across the submit boundary (the context still
unchanged). -/
theorem c3_amended_missing_image (st : EngineState) (fs : FS)
    (prompt p : String) (gen : GenOutcome)
    (himg : st.modelConfig.supportsImages = true) (hp : p ≠ "")
    (habs : fsExists fs p = false) :
    (st.isOnline = true →
      generate_response st fs prompt (some p) gen =
        .ok ({ status := .error, result := some ("Image file not found: " ++ p), prompt := prompt, imagePath := some p },
          { st with nextId := st.nextId + 1 }, fs)) ∧
    (st.isOnline = false →
      generate_response st fs prompt (some p) gen =
        .error (.fileNotFoundError p, { st with nextId := st.nextId + 1 }, fs)) := by
  have htr : optTruthy (some p) = true := by simpa [optTruthy] using hp
  constructor
  · intro hon
    simp [generate_response, hon, himg, htr, habs]
  · intro hoff
    simp [generate_response, hoff, himg, htr, habs]

/-- Witness for C3 amended: the remote branch at a concrete state. -/
theorem c3_amended_missing_image_witness :
    generate_response exOnlineVisionState [] "describe" (some "missing.jpg") (.ok "r")
      = .ok ({ status := .error, result := some ("Image file not found: " ++ "missing.jpg"), prompt := "describe", imagePath := some "missing.jpg" },
          { exOnlineVisionState with nextId := 1 }, []) := by
  exact (c3_amended_missing_image exOnlineVisionState [] "describe" "missing.jpg"
    (.ok "r") rfl (by decide) rfl).1 rfl

/-! ## Claim C4 -/

/-- C4 counterexample: a local task whose generation fails and whose
materialized image sits on an unremovable directory entry — the cleanup
`os.remove` raises `PermissionError` out of the submit call instead of
being logged and swallowed. -/
theorem c4_counterexample :
    generate_response exLocalVisionState
        [("src.jpg", true), ("asset/tmp/0.jpg", false)]
        "p" (some "src.jpg") (.fail "boom")
      = .error (.osError .permission,
          { exLocalVisionState with
              nextId := 1,
              tasks := [(0, { status := .error, result := some "boom", prompt := "p", imagePath := some "asset/tmp/0.jpg" })] },
          [("src.jpg", true), ("asset/tmp/0.jpg", false)]) := by decide

/-- C4 amended: when generation for a registered local task raises, the
task is marked `error` with the stringified failure; the materialized
image is deleted immediately when it exists and is removable; the bare
existence check avoids missing-file errors, but an actual deletion
failure (permission denied) is NOT caught or logged: it raises past the
submit call, after the error status has been recorded (context
unchanged in both cases, the state being explicit). -/
theorem c4_amended_error_cleanup (st : EngineState) (fs : FS) (j : Nat)
    (e : String) (task : Task) (p : String)
    (hT : taskLookup st.tasks j = some task)
    (hproc : st.hasProcessor = true)
    (himg : task.imagePath = some p) (hp : p ≠ "") :
    (fsLookup fs p = some true →
      processTask st fs j (.fail e) =
        .ok ({ task with status := .error, result := some e },
          { st with tasks := taskUpdate st.tasks j { task with status := .error, result := some e } },
          fs.filter (fun en => !(en.1 == p)))) ∧
    (fsLookup fs p = some false →
      processTask st fs j (.fail e) =
        .error (.osError .permission,
          { st with tasks := taskUpdate st.tasks j { task with status := .error, result := some e } },
          fs)) := by
  have htr : optTruthy (some p) = true := by simpa [optTruthy] using hp
  constructor
  · intro hfs
    simp [processTask, hT, tryBody, handleTaskError, osRemove, fsExists, himg, htr, hfs, hproc]
  · intro hfs
    simp [processTask, hT, tryBody, handleTaskError, osRemove, fsExists, himg, htr, hfs, hproc]

/-- Witness for C4 amended: the removable case, where the error task is
returned as data and the materialized image is removed. -/
theorem c4_amended_error_cleanup_witness :
    processTask exTaskState [("asset/tmp/0.jpg", true)] 0 (.fail "boom")
      = .ok ({ status := .error, result := some "boom", prompt := "p", imagePath := some "asset/tmp/0.jpg" },
          { exTaskState with tasks := [(0, { status := .error, result := some "boom", prompt := "p", imagePath := some "asset/tmp/0.jpg" })] },
          []) := by
  have h := (c4_amended_error_cleanup exTaskState [("asset/tmp/0.jpg", true)] 0 "boom"
    { status := .pending, result := none, prompt := "p", imagePath := some "asset/tmp/0.jpg" }
    "asset/tmp/0.jpg" (by decide) rfl rfl (by decide)).1 rfl
  exact h

/-! ## Claim C7 -/

/-- C7 counterexample: a remote submit that completes successfully
registers NO entry in the task registry, refuting "exactly one Task entry
per submitted request". -/
theorem c7_counterexample :
    (generate_response exOnlineState [] "hi" none (.ok "yo")).toOption.map
      (fun out => (out.1.status, out.2.1.tasks.length)) = some (.completed, 0) := by decide

/-- C7 amended: job identifiers are drawn from a fresh supply and never
reused; remote submissions register no task at all; every local
submission that passes image materialization registers exactly one task
under the fresh id — whether the request ends completed, error, or
raising — and freshness of the supply is preserved. -/
theorem c7_amended_task_registration (st : EngineState) (fs : FS)
    (prompt : String) (imgPath : Option String) (gen : GenOutcome)
    (hfresh : ∀ kt ∈ st.tasks, kt.1 < st.nextId) :
    st.nextId ∉ taskKeys st.tasks ∧
    (st.isOnline = true →
      (stateOf (generate_response st fs prompt imgPath gen)).tasks = st.tasks) ∧
    (st.isOnline = false →
      ((st.modelConfig.supportsImages && optTruthy imgPath) = true →
        fsExists fs (imgPath.getD "") = true) →
      taskKeys (stateOf (generate_response st fs prompt imgPath gen)).tasks
          = st.nextId :: taskKeys st.tasks ∧
      (∀ kt ∈ (stateOf (generate_response st fs prompt imgPath gen)).tasks,
        kt.1 < (stateOf (generate_response st fs prompt imgPath gen)).nextId)) := by
  refine ⟨?_, ?_, ?_⟩
  · intro hmem
    simp only [taskKeys, List.mem_map] at hmem
    obtain ⟨kt, hkt, hk⟩ := hmem
    exact absurd (hk ▸ hfresh kt hkt) (lt_irrefl _)
  · intro hon
    rcases generate_online_cases st fs prompt imgPath gen hon with
      ⟨t, -, heq⟩ | ⟨r0, -, heq⟩ <;>
      rw [heq] <;> rfl
  · intro hoff himpl
    rcases generate_local_cases st fs prompt imgPath gen hoff with
      ⟨hw, he, -⟩ | ⟨task, fs1, heq⟩
    · simp [himpl hw] at he
    · rcases processTask_cases
          { st with nextId := st.nextId + 1, tasks := (st.nextId, task) :: st.tasks }
          fs1 st.nextId gen task (by simp) with
        ⟨txt, hpt⟩ | ⟨e0, fs2x, hpt⟩ | ⟨e0, oe, hpt⟩ <;>
      · rw [heq, hpt]
        constructor
        · simp [stateOf, taskKeys]
        · exact keys_bound st.tasks _ st.nextId (by simp [taskKeys]) hfresh

/-- Witness for C7 amended at a concrete local text submit. -/
theorem c7_amended_task_registration_witness :
    taskKeys (stateOf (generate_response exLocalTextState [] "hi" none (.ok "yo"))).tasks
      = exLocalTextState.nextId :: taskKeys exLocalTextState.tasks := by
  have h := c7_amended_task_registration exLocalTextState [] "hi" none (.ok "yo")
    (by simp [exLocalTextState])
  exact (h.2.2 rfl (by simp [DEFAULT_CONFIG, exLocalTextState, optTruthy])).1

/-! ## Claim C1 -/

/-- Per-submission step for text-only prompts with a successful backend
call: the result is `completed` and the shared context grows by exactly
one message. -/
theorem submit_text_ok_step (st : EngineState) (fs : FS) (p t : String)
    (hproc : st.isOnline = false → st.hasProcessor = true) :
    ∃ st2, generate_response st fs p none (.ok t) =
        .ok ({ status := .completed, result := some t, prompt := p, imagePath := none }, st2, fs) ∧
      st2.context.length = st.context.length + 1 ∧
      st2.isOnline = st.isOnline ∧
      (st2.isOnline = false → st2.hasProcessor = true) := by
  cases hon : st.isOnline with
  | true =>
    refine ⟨{ st with
        nextId := st.nextId + 1,
        context := st.context ++ [.msg { role := "assistant", content := .parts [.text t] }] },
      ?_, by simp, by simp [hon], by simp [hon]⟩
    simp [generate_response, hon, optTruthy]
  | false =>
    have hp := hproc hon
    refine ⟨{ st with
        nextId := st.nextId + 1,
        tasks := taskUpdate ((st.nextId, { status := .pending, result := none, prompt := p, imagePath := none }) :: st.tasks) st.nextId { status := .completed, result := some t, prompt := p, imagePath := none },
        context := st.context ++ [.msg { role := "assistant", content := if st.modelConfig.supportsImages then Content.parts [.text t] else Content.str t }] },
      ?_, by simp, by simp [hon], by simp [hp]⟩
    simp [generate_response, processTask, tryBody, hon, hp, optTruthy]

/-- C1 counterexample: ONE successful submission against the remote
example agent (system prompt configured, initial context length 1)
returns status `completed` yet leaves the context at length 2, not
1 + 2*1 = 3: the user turn is only appended to the request-local copy of
the context, never to the shared context. -/
theorem c1_counterexample :
    (runSubmits exOnlineState [] [("hi", .ok "yo")]).toOption.map
      (fun out => (out.1.map (fun r => r.status), out.2.1.context.length))
      = some ([.completed], 2) ∧
    exOnlineState.context.length = 1 ∧ (2 : Nat) ≠ 1 + 2 * 1 := by decide

/-- C1 amended: submitting N prompts sequentially, each backend call
succeeding, yields N results all `completed` and a context of length
(initial length) + N — i.e. `(1 if system prompt) + N` from a freshly
constructed agent.  Each successful submission appends exactly ONE
message, the assistant turn; the user turn only ever enters the
request-local payload copy. -/
theorem c1_amended_context_growth (st : EngineState) (fs : FS)
    (jobs : List (String × GenOutcome))
    (hproc : st.isOnline = false → st.hasProcessor = true)
    (hok : ∀ j ∈ jobs, ∃ t, j.2 = GenOutcome.ok t) :
    ∃ results st2 fs2, runSubmits st fs jobs = .ok (results, st2, fs2) ∧
      (∀ r ∈ results, r.status = .completed) ∧
      st2.context.length = st.context.length + jobs.length := by
  induction jobs generalizing st fs with
  | nil => exact ⟨[], st, fs, rfl, by simp, by simp⟩
  | cons j rest ih =>
    obtain ⟨p, g⟩ := j
    obtain ⟨t, ht⟩ := hok (p, g) (List.mem_cons_self _ rest)
    simp only at ht
    subst ht
    obtain ⟨st2, heq, hlen, -, hproc2⟩ := submit_text_ok_step st fs p t hproc
    obtain ⟨rs, st3, fs3, hrun, hall, hlen2⟩ :=
      ih st2 fs hproc2 (fun j hj => hok j (List.mem_cons_of_mem _ hj))
    refine ⟨{ status := .completed, result := some t, prompt := p, imagePath := none } :: rs,
      st3, fs3, ?_, ?_, ?_⟩
    · simp [runSubmits, heq, hrun]
    · intro r hr
      rcases List.mem_cons.mp hr with rfl | hr2
      · rfl
      · exact hall r hr2
    · rw [hlen2, hlen]
      simp only [List.length_cons]
      omega

/-- Witness for C1 amended: two successful submissions against the
remote example agent (context length 1) give a context of length 3. -/
theorem c1_amended_context_growth_witness :
    ∃ results st2 fs2,
      runSubmits exOnlineState [] [("q1", .ok "a1"), ("q2", .ok "a2")] = .ok (results, st2, fs2) ∧
      (∀ r ∈ results, r.status = .completed) ∧
      st2.context.length = exOnlineState.context.length + 2 := by
  refine c1_amended_context_growth exOnlineState [] [("q1", .ok "a1"), ("q2", .ok "a2")]
    (by simp [exOnlineState]) ?_
  intro j hj
  rcases List.mem_cons.mp hj with rfl | hj2
  · exact ⟨"a1", rfl⟩
  · rcases List.mem_cons.mp hj2 with rfl | hj3
    · exact ⟨"a2", rfl⟩
    · exact absurd hj3 (List.not_mem_nil j)

/-! ## Claim C10 -/

/-- C10: for an agent with a configured system prompt, clear resets the
context to the ONE-element list holding the raw system-prompt string —
not the role/content system message that construction installed — so the
every-element-is-a-message invariant fails after clear, and the next
request's payload copy starts with that raw string. -/
theorem c10_clear_stores_raw_system_prompt (st : EngineState) (fs : FS) (s : String)
    (hsp : st.systemPrompt = some s) (hs : s ≠ "") :
    ∀ st2 fs2 log, clearContext st fs = .ok (st2, fs2, log) →
      st2.context = [.raw s] ∧
      (∀ cfg lang, CtxEntry.raw s ≠ systemMessage cfg lang s) ∧
      (∀ c, buildMessages st2.context c = [.raw s, .msg { role := "user", content := c }]) ∧
      ¬(∀ en ∈ st2.context, ∃ m, en = CtxEntry.msg m) := by
  intro st2 fs2 log h
  simp only [clearContext] at h
  split at h
  · exact absurd h (by simp)
  · split at h
    · exact absurd h (by simp)
    · have hctx : st2.context = [.raw s] := by
        obtain ⟨h1, -, -⟩ : _ ∧ _ ∧ _ := by simpa using h
        rw [← h1]
        simp [clearedCtx, hsp, hs]
      refine ⟨hctx, ?_, ?_, ?_⟩
      · intro cfg lang
        unfold systemMessage
        split <;> simp
      · intro c
        rw [hctx]
        rfl
      · intro hall
        obtain ⟨m, hm⟩ := hall (.raw s) (by rw [hctx]; simp)
        exact CtxEntry.noConfusion hm

/-- Witness for C10: after clearing the remote example agent, the stored
raw string differs from the installed system message. -/
theorem c10_clear_stores_raw_system_prompt_witness :
    CtxEntry.raw "sys" ≠ systemMessage DEFAULT_CONFIG "english" "sys" := by
  have h := c10_clear_stores_raw_system_prompt exOnlineState [] "sys" rfl (by decide)
    { exOnlineState with context := [.raw "sys"], tasks := [] } [] [] (by decide)
  exact h.2.1 DEFAULT_CONFIG "english"

/-! ## Claim C9 -/

/-- C9: the acceleration configuration is NOT optional in the code.
Constructing with the documented default `vllm_cfg = None` dereferences
`vllm_cfg.enable` (base.py line 92) and raises `AttributeError` instead
of defaulting the enable flag and emitting a diagnostic. -/
theorem c9_missing_vllm_cfg_crashes_construction :
    initEngine {} "gpt2" none "english" "asset/tmp" 512 none
      = .error (.attributeError "NoneType object has no attribute enable") := by decide

/-! ## Claim C8 -/

theorem fsLookup_cons (en : String × Bool) (rest : FS) (p : String) :
    fsLookup (en :: rest) p = if en.1 == p then some en.2 else fsLookup rest p := by
  cases h : (en.1 == p) with
  | true => simp [fsLookup, List.find?_cons_of_pos, h]
  | false => simp [fsLookup, List.find?_cons_of_neg, h]

theorem fsLookup_filter_self (fs : FS) (p : String) :
    fsLookup (fs.filter (fun en => !(en.1 == p))) p = none := by
  induction fs with
  | nil => rfl
  | cons en rest ih =>
    simp only [List.filter_cons]
    cases h : (en.1 == p) with
    | true => simpa [h] using ih
    | false =>
      simp only [h, Bool.not_false, if_true]
      rw [fsLookup_cons, h]
      simpa using ih

theorem fsLookup_filter_ne (fs : FS) (p q : String) (h : q ≠ p) :
    fsLookup (fs.filter (fun en => !(en.1 == p))) q = fsLookup fs q := by
  induction fs with
  | nil => rfl
  | cons en rest ih =>
    simp only [List.filter_cons]
    cases he : (en.1 == p) with
    | true =>
      have hep : en.1 = p := eq_of_beq he
      have hq : (en.1 == q) = false := by
        refine beq_eq_false_iff_ne.mpr ?_
        rw [hep]
        exact fun hx => h hx.symm
      simp only [Bool.not_true, Bool.false_eq_true, if_false]
      rw [ih, fsLookup_cons, hq]
      simp
    | false =>
      simp only [he, Bool.not_false, if_true]
      rw [fsLookup_cons, fsLookup_cons]
      cases hq : (en.1 == q) with
      | true => simp
      | false => simpa using ih

theorem quietRemove_of_not_removable (fs : FS) (p : String)
    (h : fsLookup fs p ≠ some true) : quietRemove fs p = fs := by
  unfold quietRemove osRemove
  cases hl : fsLookup fs p with
  | none => rfl
  | some b =>
    cases b with
    | false => rfl
    | true => exact absurd hl h

theorem fsLookup_quietRemove_self (fs : FS) (p : String) :
    fsLookup (quietRemove fs p) p ≠ some true := by
  unfold quietRemove osRemove
  cases hl : fsLookup fs p with
  | none => simp [hl]
  | some b =>
    cases b with
    | false => simp [hl]
    | true => simp [fsLookup_filter_self]

theorem fsLookup_quietRemove_pres (fs : FS) (p q : String)
    (h : fsLookup fs q ≠ some true) :
    fsLookup (quietRemove fs p) q ≠ some true := by
  by_cases hpq : q = p
  · subst hpq
    exact fsLookup_quietRemove_self fs q
  · unfold quietRemove osRemove
    cases hl : fsLookup fs p with
    | none => exact h
    | some b =>
      cases b with
      | false => exact h
      | true =>
        rw [fsLookup_filter_ne fs p q hpq]
        exact h

theorem sweepFS_pres (names : List String) (fs : FS) (q : String)
    (h : fsLookup fs q ≠ some true) :
    fsLookup (sweepFS fs names) q ≠ some true := by
  induction names generalizing fs with
  | nil => exact h
  | cons p rest ih => exact ih _ (fsLookup_quietRemove_pres fs p q h)

theorem sweepFS_mem_not_removable (names : List String) (fs : FS) (q : String)
    (hq : q ∈ names) : fsLookup (sweepFS fs names) q ≠ some true := by
  induction names generalizing fs with
  | nil => exact absurd hq (List.not_mem_nil q)
  | cons p rest ih =>
    rcases List.mem_cons.mp hq with rfl | hmem
    · exact sweepFS_pres rest _ q (fsLookup_quietRemove_self fs q)
    · exact ih _ hmem

theorem sweepFS_fixed (names : List String) (fs : FS)
    (h : ∀ p ∈ names, fsLookup fs p ≠ some true) : sweepFS fs names = fs := by
  induction names with
  | nil => rfl
  | cons p rest ih =>
    have h1 : quietRemove fs p = fs :=
      quietRemove_of_not_removable fs p (h p (List.mem_cons_self p rest))
    show sweepFS (quietRemove fs p) rest = fs
    rw [h1]
    exact ih (fun q hq => h q (List.mem_cons_of_mem p hq))

theorem quietRemove_entry_subset (fs : FS) (p : String) :
    ∀ en ∈ quietRemove fs p, en ∈ fs := by
  intro en
  unfold quietRemove osRemove
  cases hl : fsLookup fs p with
  | none => exact fun hen => hen
  | some b =>
    cases b with
    | false => exact fun hen => hen
    | true => exact fun hen => List.mem_of_mem_filter hen

theorem sweepFS_entry_subset (names : List String) (fs : FS) :
    ∀ en ∈ sweepFS fs names, en ∈ fs := by
  induction names generalizing fs with
  | nil => exact fun en hen => hen
  | cons p rest ih =>
    intro en hen
    exact quietRemove_entry_subset fs p en (ih (quietRemove fs p) en hen)

theorem listdir_subset_of_subset (fs1 fs2 : FS) (d : String)
    (h : ∀ en ∈ fs2, en ∈ fs1) :
    ∀ p ∈ listdir fs2 d, p ∈ listdir fs1 d := by
  intro p hp
  simp only [listdir, List.mem_map, List.mem_filter] at hp ⊢
  obtain ⟨en, ⟨hen, hd⟩, hpe⟩ := hp
  exact ⟨en, ⟨h en hen, hd⟩, hpe⟩

/-- Sweeping a directory listing, then sweeping the new listing of the
swept filesystem, changes nothing the second time: everything removable
was removed the first time. -/
theorem sweep_listdir_idem (fs : FS) (d : String) :
    sweepFS (sweepFS fs (listdir fs d)) (listdir (sweepFS fs (listdir fs d)) d)
      = sweepFS fs (listdir fs d) := by
  apply sweepFS_fixed
  intro p hp
  have hp1 : p ∈ listdir fs d :=
    listdir_subset_of_subset fs (sweepFS fs (listdir fs d)) d
      (sweepFS_entry_subset (listdir fs d) fs) p hp
  exact sweepFS_mem_not_removable (listdir fs d) fs p hp1

theorem tryRemoveQuiet_ok (fs : FS) (p : String) (log : List String) :
    ∃ log2, tryRemoveQuiet fs p log = .ok (quietRemove fs p, log2) := by
  unfold tryRemoveQuiet quietRemove
  cases h : osRemove fs p with
  | ok fs2 => exact ⟨log, rfl⟩
  | error e => cases e <;> exact ⟨log ++ ["Failed to delete temporary file " ++ p], rfl⟩

/-- The clearing loops never raise: every removal error kind is caught,
and the resulting filesystem is the caught-removal sweep. -/
theorem removeAll_ok (names : List String) (fs : FS) (log : List String) :
    ∃ log2, removeAll fs log names = .ok (sweepFS fs names, log2) := by
  induction names generalizing fs log with
  | nil => exact ⟨log, rfl⟩
  | cons p rest ih =>
    obtain ⟨log1, h1⟩ := tryRemoveQuiet_ok fs p log
    obtain ⟨log2, h2⟩ := ih (quietRemove fs p) log1
    exact ⟨log2, by simp [removeAll, h1, h2, sweepFS]⟩

/-- `clear_context` always returns (never raises), with the reset state
and the swept filesystem. -/
theorem clearContext_computes (st : EngineState) (fs : FS) :
    ∃ log, clearContext st fs =
      .ok ({ st with context := clearedCtx st.systemPrompt, tasks := [] },
        fsAfterClear st fs, log) := by
  obtain ⟨logA, hA⟩ := removeAll_ok (taskImagePaths st.tasks) fs []
  obtain ⟨logB, hB⟩ := removeAll_ok
    (listdir (sweepFS fs (taskImagePaths st.tasks)) st.tmpDir)
    (sweepFS fs (taskImagePaths st.tasks)) logA
  exact ⟨logB, by simp [clearContext, fsAfterClear, hA, hB]⟩

/-- C8: `clear()` never raises, regardless of filesystem state —
already-deleted and permission-denied files are caught by the handler
clause and downgraded to diagnostics — and calling it twice in a row
returns from the second call the very same engine state and filesystem
that the first call produced (the second call is a no-op). -/
theorem c8_clear_idempotent_never_raises (st : EngineState) (fs : FS) :
    ∃ st1 fs1 log1, clearContext st fs = .ok (st1, fs1, log1) ∧
      ∃ log2, clearContext st1 fs1 = .ok (st1, fs1, log2) := by
  obtain ⟨log1, h1⟩ := clearContext_computes st fs
  refine ⟨_, _, log1, h1, ?_⟩
  obtain ⟨log2, h2⟩ := clearContext_computes
    { st with context := clearedCtx st.systemPrompt, tasks := [] } (fsAfterClear st fs)
  have hfs : fsAfterClear
      { st with context := clearedCtx st.systemPrompt, tasks := [] }
      (fsAfterClear st fs) = fsAfterClear st fs := by
    show sweepFS _ _ = _
    exact sweep_listdir_idem (sweepFS fs (taskImagePaths st.tasks)) st.tmpDir
  refine ⟨log2, ?_⟩
  rw [h2, hfs]


end AgentEngine
